import Mathlib

/-!
Verification of the redis-service repository against its specification.

The embedding models the pure content of the repository's two modules:

* `src/src/luaScriptService.js` — the registry of Lua scripts and the
  semantics of the five built-in scripts (`zaddLimit`, `expireNX`,
  `setHIfHigher`, `setHIfLower`, `getPolylineChunks`), modelled together
  with the redis data structures they act on (sorted sets as association
  lists from member to score, hash fields as optional numeric values,
  key TTL state as an optional optional number).
* `src/unnamed/part_003` — the `RedisService` class: logger validation,
  the connection map, and the create/connect/get/register flow.  The
  asynchronous flow is modelled as explicit steps on a `ServiceState`:
  `createConnectionEntry` is the synchronous body of `createConnection`
  (runs up to returning the pending promise), and `connectEvent` is the
  transport's `connect` handler installed by `_handleConnectionPromise`.

Machine integers do not overflow in any of the modelled code paths, so
scores and values are `Int`, cardinalities `Nat`.
-/

namespace RedisServiceModel

/-! ### Redis sorted sets

A sorted set is an association list from member to score.  Rank order
(as used by ZREMRANGEBYRANK and reported by ZRANGE) sorts by score and
breaks ties lexicographically on the member, which `ranked` computes. -/

abbrev ZSet := List (String × Int)

/-- Model of the redis ZADD command for a single pair: the member's score
is replaced if the member is present, otherwise the member is inserted. -/
def zadd (s : ZSet) (score : Int) (member : String) : ZSet :=
  (member, score) :: s.filter (fun p => p.1 ≠ member)

/-- Model of the redis ZCARD command. -/
def zcard (s : ZSet) : Nat := s.length

/-- Rank order of a sorted set: by score, ties broken by member. -/
def zorder (a b : String × Int) : Prop :=
  a.2 < b.2 ∨ (a.2 = b.2 ∧ a.1 ≤ b.1)

instance : DecidableRel zorder := fun a b => by
  unfold zorder
  infer_instance

/-- The elements of a sorted set in rank order. -/
def ranked (s : ZSet) : ZSet := List.insertionSort zorder s

/-- Normalisation of a rank-range start index: negative indices count from
the end, and the result is clamped below at 0 (redis semantics). -/
def clampStart (a n : Int) : Int := max (if a < 0 then a + n else a) 0

/-- Normalisation of a rank-range stop index: negative indices count from
the end, and the result is clamped above at the last rank (redis semantics). -/
def clampStop (b n : Int) : Int := min (if b < 0 then b + n else b) (n - 1)

/-- Model of the redis ZREMRANGEBYRANK command: removes the elements whose
rank lies in the normalised range, and nothing when the range is empty. -/
def zremrangebyrank (s : ZSet) (a b : Int) : ZSet :=
  if clampStop b ((ranked s).length : Int) < clampStart a ((ranked s).length : Int) then s
  else
    (ranked s).take (clampStart a ((ranked s).length : Int)).toNat ++
      (ranked s).drop ((clampStop b ((ranked s).length : Int)).toNat + 1)

/-- The `zaddLimit` script (src/src/luaScriptService.js lines 10-20):
ZADD, then if ZCARD exceeds `limit` (ARGV 3), ZREMRANGEBYRANK from rank 0
to rank `trimCount - 1` (ARGV 4 minus one). -/
def zaddLimit (s : ZSet) (score : Int) (member : String) (limit trimCount : Int) : ZSet :=
  if ((zcard (zadd s score member)) : Int) > limit then
    zremrangebyrank (zadd s score member) 0 (trimCount - 1)
  else
    zadd s score member

/-! ### Key TTL state

A key is `none` when absent, `some none` when present with no TTL, and
`some (some t)` when present with TTL `t`. -/

/-- Model of the redis TTL command: -2 for a missing key, -1 for a key
with no TTL, otherwise the TTL. -/
def ttlCmd : Option (Option Nat) → Int
  | none => -2
  | some none => -1
  | some (some t) => (t : Int)

/-- Model of the redis EXPIRE command's effect on the key: a missing key
is untouched (EXPIRE replies 0 there), otherwise the TTL is set. -/
def expireCmd (k : Option (Option Nat)) (t : Nat) : Option (Option Nat) :=
  match k with
  | none => none
  | some _ => some (some t)

/-- The `expireNX` script (src/src/luaScriptService.js lines 22-30): reads
the TTL and calls EXPIRE exactly when the reported TTL is negative. -/
def expireNX (k : Option (Option Nat)) (t : Nat) : Option (Option Nat) :=
  if ttlCmd k < 0 then expireCmd k t else k

/-! ### Conditional hash set

The scripts act on a single hash field, modelled as its current numeric
value or `none` when absent.  Each returns the new field state and the
script's reply.  HSET replies 1 when it creates the field, which is what
the scripts return on the absent branch. -/

/-- The `setHIfHigher` script (src/src/luaScriptService.js lines 32-47). -/
def setHIfHigher (c : Option Int) (v : Int) : Option Int × Int :=
  match c with
  | some c => if v > c then (some v, v - c) else (some c, 0)
  | none => (some v, 1)

/-- The `setHIfLower` script (src/src/luaScriptService.js lines 49-64). -/
def setHIfLower (c : Option Int) (v : Int) : Option Int × Int :=
  match c with
  | some c => if v < c then (some v, v - c) else (some c, 0)
  | none => (some v, 1)

/-! ### Bounding-box membership -/

/-- Members of `s` whose score is at most `b` (ZRANGE -inf..b BYSCORE). -/
def scanLe (s : ZSet) (b : Int) : List String :=
  (s.filter (fun p => p.2 ≤ b)).map Prod.fst

/-- Members of `s` whose score is at least `b` (ZRANGE b..+inf BYSCORE). -/
def scanGe (s : ZSet) (b : Int) : List String :=
  (s.filter (fun p => b ≤ p.2)).map Prod.fst

/-- The concatenation of the four directional scans of the
`getPolylineChunks` script; the temporary accumulator set counts, per
member, its occurrences in this list. -/
def bboxHits (latmin latmax lonmin lonmax : ZSet) (lat lon : Int) : List String :=
  scanLe latmin lat ++ scanGe latmax lat ++ scanLe lonmin lon ++ scanGe lonmax lon

/-- The `getPolylineChunks` script (src/src/luaScriptService.js lines
66-99): after the four scans and the ZINCRBY accumulation into a freshly
deleted temporary set, the returned members are those whose accumulated
count reached 4 (each member at most once, as in any sorted set). -/
def getPolylineChunks (latmin latmax lonmin lonmax : ZSet) (lat lon : Int) : List String :=
  (bboxHits latmin latmax lonmin lonmax lat lon).dedup.filter
    (fun m => 4 ≤ (bboxHits latmin latmax lonmin lonmax lat lon).count m)

/-! ### Script registry (src/src/luaScriptService.js)

A script definition carries `numberOfKeys` (modelled as an optional
integer: `none` for an absent property) and the `lua` body.  The JS
validity check is truthiness: `!script.numberOfKeys || !script.lua`, so
`numberOfKeys` fails the check exactly when absent or zero, and `lua`
exactly when empty. -/

structure ScriptDef where
  numberOfKeys : Option Int
  lua : String
  deriving DecidableEq

/-- Truthiness of the `numberOfKeys` property: `!script.numberOfKeys`. -/
def numberOfKeysFalsy : Option Int → Bool
  | none => true
  | some k => k == 0

abbrev Registry := List (String × ScriptDef)

/-- Lookup in the registry map (`this.scripts.get(name)`). -/
def regGet (r : Registry) (n : String) : Option ScriptDef :=
  (r.find? (fun p => p.1 == n)).map Prod.snd

/-- `LuaScriptsService.register` (src/src/luaScriptService.js lines
107-112): throws on an invalid definition, otherwise `Map.set`,
overwriting any existing entry under the name. -/
def register (r : Registry) (n : String) (d : ScriptDef) : Except String Registry :=
  if numberOfKeysFalsy d.numberOfKeys || d.lua == "" then
    Except.error ("Invalid script format for " ++ n)
  else
    Except.ok ((n, d) :: r.filter (fun p => p.1 ≠ n))

/-- `LuaScriptsService.getScripts` (src/src/luaScriptService.js lines
128-137): collects the found names into a fresh object, silently
skipping unknown names. -/
def getScripts (r : Registry) (names : List String) : List (String × ScriptDef) :=
  names.filterMap (fun n => (regGet r n).map (fun d => (n, d)))

/-! ### RedisService (src/unnamed/part_003)

A logger object is modelled by which of the four capabilities are
callable.  `setupLogger` is modelled on actual objects (a JS object is
truthy, so the `if (!customLogger)` early return cannot fire there). -/

structure Logger where
  info : Bool
  error : Bool
  debug : Bool
  warn : Bool
  deriving DecidableEq

/-- The `requiredMethods` list of `setupLogger` (part_003 line 73). -/
def requiredMethods : List String := ["info", "error", "debug", "warn"]

/-- Whether `typeof customLogger[method] === 'function'`. -/
def hasMethod (L : Logger) : String → Bool
  | "info" => L.info
  | "error" => L.error
  | "debug" => L.debug
  | "warn" => L.warn
  | _ => false

/-- The `missingMethods` filter of `setupLogger` (part_003 lines 74-76). -/
def missingMethods (L : Logger) : List String :=
  requiredMethods.filter (fun m => !(hasMethod L m))

/-- One entry of the `connections` map: the live handle (a numeric id in
the model) and the Lua scripts captured for it. -/
structure ConnRecord where
  connection : Nat
  luaScripts : List (String × ScriptDef)
  deriving DecidableEq

/-- The state of the `RedisService` singleton together with the
`luaScriptsService` registry it consults. -/
structure ServiceState where
  connections : List (String × ConnRecord)
  registry : Registry
  logger : Logger
  deriving DecidableEq

/-- `RedisService.setupLogger` (part_003 lines 70-85) on a logger object:
throws naming every missing method, otherwise installs the logger. -/
def setupLogger (st : ServiceState) (L : Logger) : Except String ServiceState :=
  if 0 < (missingMethods L).length then
    Except.error ("Custom logger must implement these methods: " ++
      String.intercalate ", " (missingMethods L))
  else
    Except.ok { st with logger := L }

/-- The data captured by `createConnection` for `_handleConnectionPromise`:
the name, the fresh handle and the scripts fetched at call time. -/
structure PendingConn where
  connectionName : String
  connection : Nat
  luaScripts : List (String × ScriptDef)
  deriving DecidableEq

/-- Lookup in the `connections` map. -/
def lookupConn (st : ServiceState) (n : String) : Option ConnRecord :=
  (st.connections.find? (fun p => p.1 == n)).map Prod.snd

/-- The synchronous body of `RedisService.createConnection` (part_003
lines 105-139): throws when the name is in the map, otherwise captures
the requested scripts from the registry and returns the pending
connection.  The map itself is not touched here — registration happens
only in the `connect` handler (`connectEvent`). -/
def createConnectionEntry (st : ServiceState) (n : String) (scriptNames : List String)
    (handle : Nat) : Except String (ServiceState × PendingConn) :=
  if (lookupConn st n).isSome then
    Except.error ("Connection " ++ n ++ " already exists")
  else
    Except.ok (st,
      ⟨n, handle, if 0 < scriptNames.length then getScripts st.registry scriptNames else []⟩)

/-- The `connect` handler installed by `_handleConnectionPromise`
(part_003 lines 236-245): `Map.set` the record (overwriting any entry
under the name), define the captured Lua commands on the handle, and
resolve the creation promise with the handle. -/
def connectEvent (st : ServiceState) (p : PendingConn) : ServiceState × Nat :=
  ({ st with connections :=
      (p.connectionName, ⟨p.connection, p.luaScripts⟩) ::
        st.connections.filter (fun q => q.1 ≠ p.connectionName) },
    p.connection)

/-- `RedisService.getConnection` (part_003 lines 292-301). -/
def getConnection (st : ServiceState) (n : String) : Except String Nat :=
  match lookupConn st n with
  | none => Except.error ("Connection " ++ n ++ " not found")
  | some r => Except.ok r.connection

/-- A `register` call on the script registry, seen as a step of the whole
service state: only the registry component is touched. -/
def registerStep (st : ServiceState) (n : String) (d : ScriptDef) : Except String ServiceState :=
  (register st.registry n d).map (fun r => { st with registry := r })

/-! ### Helper lemmas -/

/-- Trimming ranks 0 through `t - 1` (for `t ≥ 1`) drops the
`min t card` lowest-ranked elements. -/
theorem zremrangebyrank_zero_trim (s1 : ZSet) (t : Int) (ht : 1 ≤ t)
    (hs : 1 ≤ s1.length) :
    zremrangebyrank s1 0 (t - 1) = (ranked s1).drop (min t.toNat s1.length) := by
  have hlen : (ranked s1).length = s1.length := List.length_insertionSort _ _
  have hn : (1 : Int) ≤ (s1.length : Int) := by exact_mod_cast hs
  unfold zremrangebyrank
  rw [hlen]
  have e1 : clampStart 0 ((s1.length : Nat) : Int) = 0 := by
    simp [clampStart]
  have e2 : clampStop (t - 1) ((s1.length : Nat) : Int) = min (t - 1) ((s1.length : Int) - 1) := by
    have hlt : ¬ (t - 1 < 0) := by omega
    simp only [clampStop, if_neg hlt]
  rw [e1, e2]
  rw [if_neg (by omega)]
  simp only [Int.toNat_zero, List.take_zero, List.nil_append]
  congr 1
  omega

/-- A downward scan of a sorted set with distinct members has no
duplicates. -/
theorem scanLe_nodup (s : ZSet) (b : Int) (h : (s.map Prod.fst).Nodup) :
    (scanLe s b).Nodup :=
  List.Nodup.sublist (List.Sublist.map Prod.fst (List.filter_sublist s)) h

/-- An upward scan of a sorted set with distinct members has no
duplicates. -/
theorem scanGe_nodup (s : ZSet) (b : Int) (h : (s.map Prod.fst).Nodup) :
    (scanGe s b).Nodup :=
  List.Nodup.sublist (List.Sublist.map Prod.fst (List.filter_sublist s)) h

/-- Membership in a downward scan: some score of the member in the set is
at most the bound. -/
theorem mem_scanLe (s : ZSet) (b : Int) (m : String) :
    m ∈ scanLe s b ↔ ∃ sc, (m, sc) ∈ s ∧ sc ≤ b := by
  simp only [scanLe, List.mem_map, List.mem_filter, decide_eq_true_eq]
  constructor
  · rintro ⟨⟨m2, sc⟩, ⟨hm, hb⟩, rfl⟩
    exact ⟨sc, hm, hb⟩
  · rintro ⟨sc, hm, hb⟩
    exact ⟨(m, sc), ⟨hm, hb⟩, rfl⟩

/-- Membership in an upward scan: some score of the member in the set is
at least the bound. -/
theorem mem_scanGe (s : ZSet) (b : Int) (m : String) :
    m ∈ scanGe s b ↔ ∃ sc, (m, sc) ∈ s ∧ b ≤ sc := by
  simp only [scanGe, List.mem_map, List.mem_filter, decide_eq_true_eq]
  constructor
  · rintro ⟨⟨m2, sc⟩, ⟨hm, hb⟩, rfl⟩
    exact ⟨sc, hm, hb⟩
  · rintro ⟨sc, hm, hb⟩
    exact ⟨(m, sc), ⟨hm, hb⟩, rfl⟩

/-- The missing-method list contains exactly the required method names
whose capability is not callable. -/
theorem mem_missingMethods (L : Logger) (meth : String) :
    meth ∈ missingMethods L ↔
      ((meth = "info" ∧ L.info = false) ∨ (meth = "error" ∧ L.error = false) ∨
        (meth = "debug" ∧ L.debug = false) ∨ (meth = "warn" ∧ L.warn = false)) := by
  unfold missingMethods requiredMethods
  simp only [List.mem_filter, List.mem_cons, List.not_mem_nil, or_false,
    Bool.not_eq_true']
  constructor
  · rintro ⟨rfl | rfl | rfl | rfl, hf⟩
    · exact Or.inl ⟨rfl, hf⟩
    · exact Or.inr (Or.inl ⟨rfl, hf⟩)
    · exact Or.inr (Or.inr (Or.inl ⟨rfl, hf⟩))
    · exact Or.inr (Or.inr (Or.inr ⟨rfl, hf⟩))
  · rintro (⟨rfl, hf⟩ | ⟨rfl, hf⟩ | ⟨rfl, hf⟩ | ⟨rfl, hf⟩)
    · exact ⟨Or.inl rfl, hf⟩
    · exact ⟨Or.inr (Or.inl rfl), hf⟩
    · exact ⟨Or.inr (Or.inr (Or.inl rfl)), hf⟩
    · exact ⟨Or.inr (Or.inr (Or.inr rfl)), hf⟩

/-! ### Claim theorems -/

/-- C2 counterexample: `setHIfHigher` on an absent field sets the value
but returns 1 (the HSET reply counting created fields), not the set
value 5 the claim states. -/
theorem setHIfHigher_absent_returns_one :
    setHIfHigher none 5 = (some 5, 1) ∧ (setHIfHigher none 5).2 ≠ 5 := by
  exact ⟨rfl, by decide⟩

/-- C2 (amended): on an absent field both conditional hash scripts set
the field to `v` and return 1 (the HSET reply); on a field holding `c`
they set and return the signed delta exactly when `v` is strictly higher
(respectively lower) than `c`, and otherwise leave the field and return
0.  The spec's worked example runs 5, 3, 9 with returns 1, 0, 4. -/
theorem conditionalHashSet_spec (c v : Int) :
    setHIfHigher none v = (some v, 1) ∧
    setHIfLower none v = (some v, 1) ∧
    setHIfHigher (some c) v = (if v > c then (some v, v - c) else (some c, 0)) ∧
    setHIfLower (some c) v = (if v < c then (some v, v - c) else (some c, 0)) ∧
    setHIfHigher none 5 = (some 5, 1) ∧
    setHIfHigher (some 5) 3 = (some 5, 0) ∧
    setHIfHigher (some 5) 9 = (some 9, 4) := by
  refine ⟨rfl, rfl, rfl, rfl, rfl, by decide, by decide⟩

/-- C5 counterexample: on a nonexistent key the reported TTL is -2, which
is negative, yet the EXPIRE call is a no-op: no TTL is set and the key
stays absent, contradicting the claim's "sets the TTL exactly when the
reported TTL is negative". -/
theorem expireNX_missing_key_no_ttl_set :
    ttlCmd none < 0 ∧ expireNX none 5 = none ∧ expireNX none 5 ≠ some (some 5) := by
  refine ⟨by decide, rfl, by decide⟩

/-- C5 (amended): `expireNX` sets the TTL exactly when the key exists and
has no TTL; a key with a TTL keeps it unchanged (in particular a TTL of
100 survives a call with 5), and a nonexistent key stays absent because
EXPIRE does not create keys. -/
theorem expireNX_spec (t c : Nat) :
    expireNX (some none) t = some (some t) ∧
    expireNX (some (some c)) t = some (some c) ∧
    expireNX none t = none ∧
    expireNX (some (some 100)) 5 = some (some 100) ∧
    expireNX (some none) 5 = some (some 5) := by
  refine ⟨rfl, ?_, rfl, by decide, rfl⟩
  have h : ¬ ttlCmd (some (some c)) < 0 := by
    simp only [ttlCmd]
    omega
  unfold expireNX
  rw [if_neg h]

/-- C4 counterexample: a definition whose `numberOfKeys` is the negative
integer -1 is not a positive integer, so the claim requires `register` to
fail; the code's truthiness check accepts it and stores the definition. -/
theorem register_negative_arity_accepted :
    ¬ (0 < (-1 : Int)) ∧
    register [] "s" ⟨some (-1), "body"⟩ =
      Except.ok [("s", ⟨some (-1), "body"⟩)] := by
  exact ⟨by decide, rfl⟩

/-- C4 (amended): `register` fails exactly when `numberOfKeys` is absent
or zero (JS falsiness) or the body is empty — a negative or otherwise
non-positive-integer arity that is truthy is accepted; when it does not
fail it stores the definition, overwriting any entry under the name. -/
theorem register_spec (r : Registry) (n : String) (d : ScriptDef) :
    ((∃ e, register r n d = Except.error e) ↔
      (d.numberOfKeys = none ∨ d.numberOfKeys = some 0 ∨ d.lua = "")) ∧
    (∀ r2, register r n d = Except.ok r2 →
      r2 = (n, d) :: r.filter (fun p => p.1 ≠ n) ∧ regGet r2 n = some d) := by
  have hc : (numberOfKeysFalsy d.numberOfKeys || d.lua == "") = true ↔
      (d.numberOfKeys = none ∨ d.numberOfKeys = some 0 ∨ d.lua = "") := by
    cases h : d.numberOfKeys <;> simp [numberOfKeysFalsy]
  constructor
  · rw [← hc]
    constructor
    · rintro ⟨e, he⟩
      by_contra hb
      unfold register at he
      rw [if_neg hb] at he
      exact Except.noConfusion he
    · intro h
      refine ⟨"Invalid script format for " ++ n, ?_⟩
      unfold register
      rw [if_pos h]
  · intro r2 h2
    unfold register at h2
    by_cases h : (numberOfKeysFalsy d.numberOfKeys || d.lua == "") = true
    · rw [if_pos h] at h2
      exact Except.noConfusion h2
    · rw [if_neg h] at h2
      obtain rfl := (Except.ok.inj h2).symm
      refine ⟨rfl, ?_⟩
      simp [regGet, List.find?]

/-- C3 counterexample: with `trimCount = 0` the claim says no member is
removed; on the two-member set below capped at `limit = 2`, adding a
third member makes the cardinality exceed the limit and the script
empties the whole set (rank range 0 through -1). -/
theorem zaddLimit_trimCount_zero_not_noop :
    ((zcard (zadd [("a", 1), ("b", 2)] 3 "c") : Int) > 2) ∧
    zaddLimit [("a", 1), ("b", 2)] 3 "c" 2 0 = [] := by
  refine ⟨by decide, by decide⟩

/-- C3 (amended): for `trimCount ≥ 1`, when the cardinality after the add
exceeds `limit` the script removes exactly the `min trimCount card`
lowest-ranked members (the result is the rank-ordered set with that many
lowest elements dropped) and no others; when the cardinality does not
exceed `limit` nothing is removed.  With `trimCount = 0` the rank range
0..-1 denotes the whole set, so all members are removed instead of none.
In the spec's example, a 6th distinct member into a set capped at 5 with
`trimCount = 1` brings the cardinality back to 5 by dropping the member
with the lowest score. -/
theorem zaddLimit_trims_lowest (s : ZSet) (score : Int) (member : String)
    (limit trimCount : Int) (ht : 1 ≤ trimCount) :
    (((zcard (zadd s score member) : Int) > limit) →
      zaddLimit s score member limit trimCount =
        (ranked (zadd s score member)).drop
          (min trimCount.toNat (zcard (zadd s score member)))) ∧
    ((¬ ((zcard (zadd s score member) : Int) > limit)) →
      zaddLimit s score member limit trimCount = zadd s score member) ∧
    zaddLimit [("a", 1), ("b", 2), ("c", 3), ("d", 4), ("e", 5)] 6 "f" 5 1 =
      [("b", 2), ("c", 3), ("d", 4), ("e", 5), ("f", 6)] := by
  refine ⟨fun h => ?_, fun h => ?_, by decide⟩
  · unfold zaddLimit
    rw [if_pos h]
    exact zremrangebyrank_zero_trim _ _ ht (by simp [zadd])
  · unfold zaddLimit
    rw [if_neg h]

/-- C3 witness: the amended theorem applied to the spec's worked example
(limit 5, trimCount 1, a 6th distinct member). -/
theorem zaddLimit_trims_lowest_witness :
    (((zcard (zadd [("a", 1), ("b", 2), ("c", 3), ("d", 4), ("e", 5)] 6 "f") : Int) > 5) →
      zaddLimit [("a", 1), ("b", 2), ("c", 3), ("d", 4), ("e", 5)] 6 "f" 5 1 =
        (ranked (zadd [("a", 1), ("b", 2), ("c", 3), ("d", 4), ("e", 5)] 6 "f")).drop
          (min (1 : Int).toNat
            (zcard (zadd [("a", 1), ("b", 2), ("c", 3), ("d", 4), ("e", 5)] 6 "f")))) ∧
    ((¬ ((zcard (zadd [("a", 1), ("b", 2), ("c", 3), ("d", 4), ("e", 5)] 6 "f") : Int) > 5)) →
      zaddLimit [("a", 1), ("b", 2), ("c", 3), ("d", 4), ("e", 5)] 6 "f" 5 1 =
        zadd [("a", 1), ("b", 2), ("c", 3), ("d", 4), ("e", 5)] 6 "f") ∧
    zaddLimit [("a", 1), ("b", 2), ("c", 3), ("d", 4), ("e", 5)] 6 "f" 5 1 =
      [("b", 2), ("c", 3), ("d", 4), ("e", 5), ("f", 6)] :=
  zaddLimit_trims_lowest [("a", 1), ("b", 2), ("c", 3), ("d", 4), ("e", 5)] 6 "f" 5 1
    (by decide)

/-- C10: when the cardinality after the add exceeds the limit and
`trimCount = 0`, the trim rank range becomes 0 through -1, which denotes
the whole set, so every member is removed and the set is left empty. -/
theorem zaddLimit_trimCount_zero_clears (s : ZSet) (score : Int) (member : String)
    (limit : Int) (h : (zcard (zadd s score member) : Int) > limit) :
    zaddLimit s score member limit 0 = [] := by
  have hs : 1 ≤ (zadd s score member).length := by simp [zadd]
  have hlen : (ranked (zadd s score member)).length = (zadd s score member).length :=
    List.length_insertionSort _ _
  have hn : (1 : Int) ≤ ((zadd s score member).length : Int) := by exact_mod_cast hs
  unfold zaddLimit
  rw [if_pos h]
  unfold zremrangebyrank
  rw [hlen]
  have e1 : clampStart 0 (((zadd s score member).length : Nat) : Int) = 0 := by
    simp [clampStart]
  have e2 : clampStop (0 - 1) (((zadd s score member).length : Nat) : Int) =
      ((zadd s score member).length : Int) - 1 := by
    have hlt : ((0 : Int) - 1 < 0) := by omega
    simp only [clampStop, if_pos hlt]
    omega
  rw [e1, e2]
  rw [if_neg (by omega)]
  simp only [Int.toNat_zero, List.take_zero, List.nil_append]
  apply List.drop_eq_nil_of_le
  rw [hlen]
  omega

/-- C10 witness: adding a third member to a two-member set capped at 2
with `trimCount = 0` empties the set. -/
theorem zaddLimit_trimCount_zero_clears_witness :
    zaddLimit [("a", 1), ("b", 2)] 3 "c" 2 0 = [] :=
  zaddLimit_trimCount_zero_clears [("a", 1), ("b", 2)] 3 "c" 2 (by decide)

/-- C6: a member is returned by `getPolylineChunks` exactly when it
appears in all four directional range scans, i.e. it has a score at most
`lat` in the lat-min set, at least `lat` in the lat-max set, at most
`lon` in the lon-min set and at least `lon` in the lon-max set — the
per-member accumulator reaches 4 only then, since a sorted set lists
each member at most once per scan.  When no member satisfies all four,
the result is empty. -/
theorem getPolylineChunks_membership (latmin latmax lonmin lonmax : ZSet)
    (lat lon : Int) (m : String)
    (h1 : (latmin.map Prod.fst).Nodup) (h2 : (latmax.map Prod.fst).Nodup)
    (h3 : (lonmin.map Prod.fst).Nodup) (h4 : (lonmax.map Prod.fst).Nodup) :
    m ∈ getPolylineChunks latmin latmax lonmin lonmax lat lon ↔
      ((∃ sc, (m, sc) ∈ latmin ∧ sc ≤ lat) ∧ (∃ sc, (m, sc) ∈ latmax ∧ lat ≤ sc) ∧
        (∃ sc, (m, sc) ∈ lonmin ∧ sc ≤ lon) ∧ (∃ sc, (m, sc) ∈ lonmax ∧ lon ≤ sc)) := by
  have k1 : (scanLe latmin lat).count m ≤ 1 :=
    List.nodup_iff_count_le_one.1 (scanLe_nodup _ _ h1) m
  have k2 : (scanGe latmax lat).count m ≤ 1 :=
    List.nodup_iff_count_le_one.1 (scanGe_nodup _ _ h2) m
  have k3 : (scanLe lonmin lon).count m ≤ 1 :=
    List.nodup_iff_count_le_one.1 (scanLe_nodup _ _ h3) m
  have k4 : (scanGe lonmax lon).count m ≤ 1 :=
    List.nodup_iff_count_le_one.1 (scanGe_nodup _ _ h4) m
  rw [← mem_scanLe latmin lat m, ← mem_scanGe latmax lat m, ← mem_scanLe lonmin lon m,
    ← mem_scanGe lonmax lon m]
  unfold getPolylineChunks bboxHits
  rw [List.mem_filter, List.mem_dedup, decide_eq_true_eq]
  simp only [List.count_append, List.mem_append]
  rw [← List.count_pos_iff, ← List.count_pos_iff, ← List.count_pos_iff,
    ← List.count_pos_iff]
  omega

/-- C6 witness: the membership characterisation applied to singleton
auxiliary sets whose only chunk encloses the query point. -/
theorem getPolylineChunks_membership_witness :
    "a" ∈ getPolylineChunks [("a", 0)] [("a", 10)] [("a", 0)] [("a", 10)] 5 5 ↔
      ((∃ sc, ("a", sc) ∈ [("a", (0 : Int))] ∧ sc ≤ 5) ∧
        (∃ sc, ("a", sc) ∈ [("a", (10 : Int))] ∧ 5 ≤ sc) ∧
        (∃ sc, ("a", sc) ∈ [("a", (0 : Int))] ∧ sc ≤ 5) ∧
        (∃ sc, ("a", sc) ∈ [("a", (10 : Int))] ∧ 5 ≤ sc)) :=
  getPolylineChunks_membership [("a", 0)] [("a", 10)] [("a", 0)] [("a", 10)] 5 5 "a"
    (by decide) (by decide) (by decide) (by decide)

/-- C1: the failing concurrent-creation scenario, evaluated on the model.
`createConnectionEntry` only checks the map and does not reserve the
name; registration happens in the `connect` handler.  Two calls for the
fresh name "n" that both pass the entry check therefore both proceed:
both entries succeed (no `DuplicateNameError`), the first `connect`
registers handle 1, and the second `connect` silently overwrites it with
handle 2 — contradicting "exactly one call succeeds and at no point are
two distinct handles registered under the name". -/
theorem createConnection_concurrent_overwrite :
    (createConnectionEntry ⟨[], [], ⟨true, true, true, true⟩⟩ "n" [] 1).isOk = true ∧
    (createConnectionEntry ⟨[], [], ⟨true, true, true, true⟩⟩ "n" [] 2).isOk = true ∧
    getConnection
      (connectEvent ⟨[], [], ⟨true, true, true, true⟩⟩ ⟨"n", 1, []⟩).1 "n" =
      Except.ok 1 ∧
    getConnection
      (connectEvent (connectEvent ⟨[], [], ⟨true, true, true, true⟩⟩ ⟨"n", 1, []⟩).1
        ⟨"n", 2, []⟩).1 "n" = Except.ok 2 := by
  exact ⟨rfl, rfl, rfl, rfl⟩

/-- C7: on a free name, the synchronous entry of `createConnection`
succeeds, the `connect` handler resolves the creation call with the
handle it registered, and a subsequent `getConnection` on the same name
returns exactly that handle. -/
theorem create_then_get_roundtrip (st : ServiceState) (n : String) (handle : Nat)
    (hfree : lookupConn st n = none) :
    createConnectionEntry st n [] handle = Except.ok (st, ⟨n, handle, []⟩) ∧
    (connectEvent st ⟨n, handle, []⟩).2 = handle ∧
    getConnection (connectEvent st ⟨n, handle, []⟩).1 n = Except.ok handle := by
  refine ⟨?_, rfl, ?_⟩
  · unfold createConnectionEntry
    rw [hfree]
    rfl
  · unfold getConnection lookupConn connectEvent
    simp [List.find?]

/-- C7 witness: the round trip on an initially empty service with
name "c1" and handle 7. -/
theorem create_then_get_roundtrip_witness :
    createConnectionEntry ⟨[], [], ⟨true, true, true, true⟩⟩ "c1" [] 7 =
      Except.ok (⟨[], [], ⟨true, true, true, true⟩⟩, ⟨"c1", 7, []⟩) ∧
    (connectEvent ⟨[], [], ⟨true, true, true, true⟩⟩ ⟨"c1", 7, []⟩).2 = 7 ∧
    getConnection (connectEvent ⟨[], [], ⟨true, true, true, true⟩⟩ ⟨"c1", 7, []⟩).1 "c1" =
      Except.ok 7 :=
  create_then_get_roundtrip ⟨[], [], ⟨true, true, true, true⟩⟩ "c1" 7 rfl

/-- C8: the scripts of a connection are captured from the registry by the
creation call; a later `register` (including an overwrite) changes only
the registry, leaves every existing connection record untouched, and the
`connect` handler still binds exactly the captured snapshot — no
retroactive rebinding. -/
theorem bound_scripts_fixed_at_capture (st stp stR : ServiceState) (n : String)
    (names : List String) (handle : Nat) (rn : String) (d : ScriptDef) (p : PendingConn)
    (hcreate : createConnectionEntry st n names handle = Except.ok (stp, p))
    (hreg : registerStep st rn d = Except.ok stR) :
    p.luaScripts = (if 0 < names.length then getScripts st.registry names else []) ∧
    stR.connections = st.connections ∧
    lookupConn (connectEvent stR p).1 p.connectionName =
      some ⟨p.connection, p.luaScripts⟩ := by
  unfold createConnectionEntry at hcreate
  by_cases hdup : (lookupConn st n).isSome
  · rw [if_pos hdup] at hcreate
    exact Except.noConfusion hcreate
  · rw [if_neg hdup] at hcreate
    obtain ⟨hstp, hpp⟩ := Prod.mk.injEq .. ▸ Except.ok.inj hcreate
    subst hpp
    unfold registerStep at hreg
    cases hr : register st.registry rn d with
    | error e =>
      rw [hr] at hreg
      exact Except.noConfusion hreg
    | ok r2 =>
      rw [hr] at hreg
      simp only [Except.map] at hreg
      obtain rfl := (Except.ok.inj hreg).symm
      refine ⟨rfl, rfl, ?_⟩
      unfold lookupConn connectEvent
      simp [List.find?]

/-- C8 witness: a connection created with script "s1" captured from the
registry keeps that binding after "s2" is registered. -/
theorem bound_scripts_fixed_at_capture_witness :
    (⟨"n", 7, [("s1", ⟨some 1, "b1"⟩)]⟩ : PendingConn).luaScripts =
      (if 0 < (["s1"] : List String).length then
        getScripts [("s1", ⟨some 1, "b1"⟩)] ["s1"] else []) ∧
    (⟨[], [("s2", ⟨some 2, "b2"⟩), ("s1", ⟨some 1, "b1"⟩)],
        ⟨true, true, true, true⟩⟩ : ServiceState).connections =
      (⟨[], [("s1", ⟨some 1, "b1"⟩)], ⟨true, true, true, true⟩⟩ : ServiceState).connections ∧
    lookupConn
      (connectEvent
        ⟨[], [("s2", ⟨some 2, "b2"⟩), ("s1", ⟨some 1, "b1"⟩)], ⟨true, true, true, true⟩⟩
        ⟨"n", 7, [("s1", ⟨some 1, "b1"⟩)]⟩).1
      (⟨"n", 7, [("s1", ⟨some 1, "b1"⟩)]⟩ : PendingConn).connectionName =
      some ⟨7, [("s1", ⟨some 1, "b1"⟩)]⟩ :=
  bound_scripts_fixed_at_capture
    ⟨[], [("s1", ⟨some 1, "b1"⟩)], ⟨true, true, true, true⟩⟩
    ⟨[], [("s1", ⟨some 1, "b1"⟩)], ⟨true, true, true, true⟩⟩
    ⟨[], [("s2", ⟨some 2, "b2"⟩), ("s1", ⟨some 1, "b1"⟩)], ⟨true, true, true, true⟩⟩
    "n" ["s1"] 7 "s2" ⟨some 2, "b2"⟩ ⟨"n", 7, [("s1", ⟨some 1, "b1"⟩)]⟩ rfl rfl

/-- C9: on a logger object, `setupLogger` fails when any of the four
capabilities is not callable, with a message listing every missing
capability (the missing-method list holds exactly the required names
whose capability is absent); when all four are callable it succeeds and
installs the logger as the service-wide logger used from then on. -/
theorem setupLogger_spec (st : ServiceState) (L : Logger) :
    ((L.info = false ∨ L.error = false ∨ L.debug = false ∨ L.warn = false) →
      setupLogger st L = Except.error ("Custom logger must implement these methods: " ++
        String.intercalate ", " (missingMethods L))) ∧
    (∀ meth, meth ∈ missingMethods L ↔
      ((meth = "info" ∧ L.info = false) ∨ (meth = "error" ∧ L.error = false) ∨
        (meth = "debug" ∧ L.debug = false) ∨ (meth = "warn" ∧ L.warn = false))) ∧
    ((L.info = true ∧ L.error = true ∧ L.debug = true ∧ L.warn = true) →
      setupLogger st L = Except.ok { st with logger := L }) := by
  refine ⟨fun h => ?_, mem_missingMethods L, fun h => ?_⟩
  · have hmem : ∃ meth, meth ∈ missingMethods L := by
      rcases h with h | h | h | h
      · exact ⟨"info", (mem_missingMethods L "info").2 (Or.inl ⟨rfl, h⟩)⟩
      · exact ⟨"error", (mem_missingMethods L "error").2 (Or.inr (Or.inl ⟨rfl, h⟩))⟩
      · exact ⟨"debug", (mem_missingMethods L "debug").2 (Or.inr (Or.inr (Or.inl ⟨rfl, h⟩)))⟩
      · exact ⟨"warn", (mem_missingMethods L "warn").2 (Or.inr (Or.inr (Or.inr ⟨rfl, h⟩)))⟩
    obtain ⟨meth, hmem⟩ := hmem
    unfold setupLogger
    rw [if_pos (List.length_pos_of_mem hmem)]
  · obtain ⟨hi, he, hd, hw⟩ := h
    have hnil : missingMethods L = [] := by
      unfold missingMethods requiredMethods
      simp [hasMethod, hi, he, hd, hw]
    unfold setupLogger
    rw [hnil]
    rfl

end RedisServiceModel
